import Mathlib

/-!
Verification of the H.264 video-chunk GOP-start inspection module
(`crates/utils/re_video/src/decode/frame_inspection.rs`).

The Rust module feeds an Annex-B byte buffer, in windows of at most 256
bytes, into a streaming NAL-unit splitter whose accumulating handler
(`H264InspectionState`) tracks the last decoded SPS result, whether an IDR
slice was seen, and the number of slice NAL units.  The final state is then
assembled into `VideoChunkInspection` or an error.

Byte buffers are modelled as `List Nat` (each entry one byte).  The
streaming splitter and the SPS bitfield decoder live in the external
`h264_reader` crate and in `crate::h264` (not part of the excerpted
sources); they are modelled here from the specification, one byte at a
time, so that window-chunked feeding is meaningful.
-/

set_option maxRecDepth 10000

/-- Video codec selector, mirroring `VideoCodec`. -/
inductive VideoCodec where
  | h264
  | h265
  | av1
  | vp8
  | vp9
deriving DecidableEq

/-- Chroma subsampling modes, mirroring `ChromaSubsamplingModes`. -/
inductive ChromaSubsamplingModes where
  | monochrome
  | yuv420
  | yuv422
  | yuv444
deriving DecidableEq

/-- Encoding details extracted from an SPS, mirroring `VideoEncodingDetails`. -/
structure VideoEncodingDetails where
  codec_string : String
  coded_dimensions : Nat × Nat
  bit_depth : Option Nat
  chroma_subsampling : Option ChromaSubsamplingModes
  stsd : Option Unit
deriving DecidableEq

/-- Result of a successful GOP detection, mirroring `GopStartDetection`. -/
inductive GopStartDetection where
  | startOfGop (details : VideoEncodingDetails)
  | notStartOfGop
deriving DecidableEq

/-- Result of a successful inspection, mirroring `VideoChunkInspection`. -/
structure VideoChunkInspection where
  gop_detection : GopStartDetection
  num_frames_detected : Option Nat
deriving DecidableEq

/-- Failure reasons, mirroring `VideoChunkInspectionError`. -/
inductive VideoChunkInspectionError where
  | unsupportedCodec (codec : VideoCodec)
  | nalHeaderError
  | failedToExtractEncodingDetails (msg : String)
deriving DecidableEq

deriving instance DecidableEq for Except

/-! ## RBSP bit reading

Modelled from the spec: the `h264_reader` crate's RBSP reader.  A NAL
payload is de-emulated (each `0x03` following two zero bytes is removed)
and then read as a big-endian bit stream. -/

/-- Modelled from the spec: emulation-prevention removal of the
`h264_reader` RBSP layer.  `z` counts consecutive zero bytes already
emitted. -/
def unemul : List Nat → Nat → List Nat
  | [], _ => []
  | b :: r, z =>
    if b = 3 ∧ 2 ≤ z then unemul r 0
    else b :: unemul r (if b = 0 then z + 1 else 0)

/-- The eight bits of a byte, most significant first. -/
def bitsOfByte (b : Nat) : List Bool :=
  [decide (b / 128 % 2 = 1), decide (b / 64 % 2 = 1), decide (b / 32 % 2 = 1),
   decide (b / 16 % 2 = 1), decide (b / 8 % 2 = 1), decide (b / 4 % 2 = 1),
   decide (b / 2 % 2 = 1), decide (b % 2 = 1)]

/-- Bit stream of a byte sequence, most significant bit of each byte first. -/
def bitsOfBytes (l : List Nat) : List Bool :=
  (l.map bitsOfByte).flatten

/-- A bit-stream parser: consumes a prefix of the bits or fails with a
message (standing for the `h264_reader` error debug representation). -/
def P (α : Type) : Type := List Bool → Except String (α × List Bool)

instance : Monad P where
  pure a := fun s => .ok (a, s)
  bind m f := fun s =>
    match m s with
    | .ok (a, s') => f a s'
    | .error e => .error e

/-- Fail with a decode-error message. -/
def pfail {α : Type} (e : String) : P α := fun _ => .error e

/-- Read one bit. -/
def readBit : P Bool
  | [] => .error "RbspReaderError(EndOfData)"
  | b :: r => .ok (b, r)

/-- Read `n` bits as an unsigned big-endian value (`u(n)`). -/
def readBitsAcc : Nat → Nat → P Nat
  | 0, acc => pure acc
  | n + 1, acc => do
    let b ← readBit
    readBitsAcc n (acc * 2 + (if b then 1 else 0))

/-- `u(n)` field. -/
def readU (n : Nat) : P Nat := readBitsAcc n 0

/-- Leading-zero count of an Exp-Golomb code word. -/
def ueLeadingZeros : List Bool → Except String (Nat × List Bool)
  | [] => .error "RbspReaderError(EndOfData)"
  | true :: r => .ok (0, r)
  | false :: r =>
    match ueLeadingZeros r with
    | .ok (n, r') => .ok (n + 1, r')
    | .error e => .error e

/-- `ue(v)` unsigned Exp-Golomb field. -/
def readUe : P Nat := fun s =>
  match ueLeadingZeros s with
  | .error e => .error e
  | .ok (lz, r) =>
    match readBitsAcc lz 0 r with
    | .error e => .error e
    | .ok (v, r') => .ok (2 ^ lz - 1 + v, r')

/-- `se(v)` signed Exp-Golomb field. -/
def readSe : P Int := do
  let k ← readUe
  pure (if k % 2 = 1 then ((k + 1) / 2 : Int) else -((k : Int) / 2))

/-! ## SPS parsing

Modelled from the spec: `h264_reader::nal::sps::SeqParameterSet::from_bits`,
following the standard SPS field layout; only the fields used by the
encoding-details mapper are retained. -/

/-- SPS fields retained for the mapper. -/
structure SpsFields where
  profile_idc : Nat
  constraint_flags : Nat
  level_idc : Nat
  chroma_format_idc : Nat
  separate_colour_plane_flag : Bool
  bit_depth_luma_minus8 : Nat
  pic_width_in_mbs_minus1 : Nat
  pic_height_in_map_units_minus1 : Nat
  frame_mbs_only_flag : Bool
  crop_left : Nat
  crop_right : Nat
  crop_top : Nat
  crop_bottom : Nat
deriving DecidableEq

/-- Profiles that carry the chroma-format / bit-depth block. -/
def hasChromaInfo (p : Nat) : Bool :=
  [100, 110, 122, 244, 44, 83, 86, 118, 128, 138, 139, 134, 135].contains p

/-- One scaling list of `n` remaining entries, carrying last/next scales. -/
def readScalingList : Nat → Int → Int → P Unit
  | 0, _, _ => pure ()
  | n + 1, lastScale, nextScale => do
    if nextScale ≠ 0 then
      let d ← readSe
      let ns := (lastScale + d + 256) % 256
      readScalingList n (if ns = 0 then lastScale else ns) ns
    else
      readScalingList n lastScale nextScale

/-- The scaling-matrix block: `n` remaining lists, `i` the current index. -/
def readScalingMatrix : Nat → Nat → P Unit
  | 0, _ => pure ()
  | n + 1, i => do
    let present ← readBit
    if present then readScalingList (if i < 6 then 16 else 64) 8 8 else pure ()
    readScalingMatrix n (i + 1)

/-- `n` consecutive `se(v)` fields. -/
def readSeList : Nat → P Unit
  | 0 => pure ()
  | n + 1 => do
    let _ ← readSe
    readSeList n

/-- HRD per-CPB entries. -/
def readHrdCpb : Nat → P Unit
  | 0 => pure ()
  | n + 1 => do
    let _ ← readUe
    let _ ← readUe
    let _ ← readBit
    readHrdCpb n

/-- HRD parameter block. -/
def readHrd : P Unit := do
  let cpbCnt ← readUe
  let _ ← readU 4
  let _ ← readU 4
  readHrdCpb (cpbCnt + 1)
  let _ ← readU 5
  let _ ← readU 5
  let _ ← readU 5
  let _ ← readU 5
  pure ()

/-- VUI parameter block (fields are consumed, none retained). -/
def readVui : P Unit := do
  let ar ← readBit
  if ar then
    let idc ← readU 8
    if idc = 255 then do
      let _ ← readU 16
      let _ ← readU 16
      pure ()
    else pure ()
  else pure ()
  let overscan ← readBit
  if overscan then do
    let _ ← readBit
    pure ()
  else pure ()
  let vst ← readBit
  if vst then do
    let _ ← readU 3
    let _ ← readBit
    let cd ← readBit
    if cd then do
      let _ ← readU 8
      let _ ← readU 8
      let _ ← readU 8
      pure ()
    else pure ()
  else pure ()
  let cl ← readBit
  if cl then do
    let _ ← readUe
    let _ ← readUe
    pure ()
  else pure ()
  let timing ← readBit
  if timing then do
    let _ ← readU 32
    let _ ← readU 32
    let _ ← readBit
    pure ()
  else pure ()
  let nalHrd ← readBit
  if nalHrd then readHrd else pure ()
  let vclHrd ← readBit
  if vclHrd then readHrd else pure ()
  if nalHrd || vclHrd then do
    let _ ← readBit
    pure ()
  else pure ()
  let _picStruct ← readBit
  let bsr ← readBit
  if bsr then do
    let _ ← readBit
    let _ ← readUe
    let _ ← readUe
    let _ ← readUe
    let _ ← readUe
    let _ ← readUe
    let _ ← readUe
    pure ()
  else pure ()

/-- Modelled from the spec: the SPS field sequence of
`SeqParameterSet::from_bits` (scaling lists, POC tables and VUI are
consumed but not retained). -/
def parseSps : P SpsFields := do
  let profile ← readU 8
  let constraints ← readU 8
  let level ← readU 8
  let _spsId ← readUe
  let (chromaIdc, sep, bdl) ←
    if hasChromaInfo profile then do
      let c ← readUe
      if 3 < c then pfail "UnknownChromaFormat" else pure ()
      let sep ← if c = 3 then readBit else pure false
      let bdl ← readUe
      let _bdc ← readUe
      let _qp ← readBit
      let sm ← readBit
      if sm then readScalingMatrix (if c = 3 then 12 else 8) 0 else pure ()
      pure (c, sep, bdl)
    else pure (1, false, 0)
  let _l2mfn ← readUe
  let poc ← readUe
  if poc = 0 then do
    let _ ← readUe
    pure ()
  else if poc = 1 then do
    let _ ← readBit
    let _ ← readSe
    let _ ← readSe
    let cnt ← readUe
    readSeList cnt
  else if poc = 2 then pure ()
  else pfail "UnsupportedPicOrderCntType"
  let _maxRef ← readUe
  let _gaps ← readBit
  let w ← readUe
  let h ← readUe
  let fmbs ← readBit
  if fmbs then pure ()
  else do
    let _mbaff ← readBit
    pure ()
  let _d8 ← readBit
  let cropFlag ← readBit
  let (cropL, cropR, cropT, cropB) ←
    if cropFlag then do
      let a ← readUe
      let b ← readUe
      let c ← readUe
      let d ← readUe
      pure (a, b, c, d)
    else pure (0, 0, 0, 0)
  let vui ← readBit
  if vui then readVui else pure ()
  pure ⟨profile, constraints, level, chromaIdc, sep, bdl, w, h, fmbs,
        cropL, cropR, cropT, cropB⟩

/-- `rbsp_trailing_bits`: a stop bit then zero padding to the byte edge,
with no further data; anything else is a leftover-data decode failure. -/
def checkTrailing : List Bool → Except String Unit
  | [] => .error "RbspReaderError(EndOfData)"
  | b :: r =>
    if b ∧ r.length < 8 ∧ r.all (fun x => !x) then .ok ()
    else .error "RbspReaderError(RemainingData)"

/-- Modelled from the spec: `SeqParameterSet::from_bits` — parse the SPS
fields and require well-formed trailing bits. -/
def spsFromBits (bits : List Bool) : Except String SpsFields :=
  match parseSps bits with
  | .error e => .error e
  | .ok (sps, rest) =>
    match checkTrailing rest with
    | .ok _ => .ok sps
    | .error e => .error e

/-! ## SPS → encoding details mapper -/

/-- Upper-case hex digit. -/
def hexDigit (n : Nat) : Char :=
  if n < 10 then Char.ofNat (48 + n) else Char.ofNat (55 + n)

/-- Two upper-case hex digits of a byte. -/
def hexByte (n : Nat) : String :=
  String.mk [hexDigit (n / 16 % 16), hexDigit (n % 16)]

/-- Modelled from the spec: `encoding_details_from_h264_sps` (in
`crate::h264`, outside the excerpt) — codec string from
profile/constraint/level bytes, coded size from the macroblock grid minus
the per-mode cropping units, bit depth with its fixed offset of 8, and the
exhaustive chroma-format mapping. -/
def encoding_details_from_h264_sps (sps : SpsFields) :
    Except String VideoEncodingDetails := do
  let chroma ←
    (match sps.chroma_format_idc with
     | 0 => .ok ChromaSubsamplingModes.monochrome
     | 1 => .ok ChromaSubsamplingModes.yuv420
     | 2 => .ok ChromaSubsamplingModes.yuv422
     | 3 => .ok ChromaSubsamplingModes.yuv444
     | _ => .error "UnknownChromaFormat" : Except String ChromaSubsamplingModes)
  let cat := if sps.separate_colour_plane_flag then 0 else sps.chroma_format_idc
  let fm := if sps.frame_mbs_only_flag then 1 else 2
  let cux := if cat = 1 ∨ cat = 2 then 2 else 1
  let cuy := (if cat = 1 then 2 else 1) * fm
  let rawW := (sps.pic_width_in_mbs_minus1 + 1) * 16
  let rawH := (sps.pic_height_in_map_units_minus1 + 1) * 16 * fm
  let dx := (sps.crop_left + sps.crop_right) * cux
  let dy := (sps.crop_top + sps.crop_bottom) * cuy
  if rawW < dx ∨ rawH < dy then .error "CroppingError"
  else
    .ok { codec_string := "avc1." ++ hexByte sps.profile_idc
            ++ hexByte sps.constraint_flags ++ hexByte sps.level_idc,
          coded_dimensions := (rawW - dx, rawH - dy),
          bit_depth := some (sps.bit_depth_luma_minus8 + 8),
          chroma_subsampling := some chroma,
          stsd := none }

/-- Decode of a complete SPS NAL unit: strip the header byte, de-emulate,
parse, map — storing the error with the prefix used at
`frame_inspection.rs:117`. -/
def decodeSpsNal (nalBytes : List Nat) : Except String VideoEncodingDetails :=
  match (spsFromBits (bitsOfBytes (unemul nalBytes.tail 0))).bind
      encoding_details_from_h264_sps with
  | .ok d => .ok d
  | .error e => .error ("Failed reading SPS: " ++ e)

/-! ## Streaming Annex-B scan

Modelled from the spec: the `AnnexBReader` streaming splitter combined
with the `H264InspectionState` accumulating handler
(`frame_inspection.rs:82-138`).  The splitter holds back pending zero
bytes, starts a NAL after a `00 00 01` start code (two or more zeros then
one), and completes the current NAL when the next start code appears; a
NAL left open at the end of the input is never completed.  The handler
fields update exactly as in `H264InspectionState::nal`: a slice NAL counts
(and sets the IDR flag for type 5) as soon as its header byte is seen,
while an SPS is decoded only once complete; `nals` records the completed
units (a trace used only by the specification-side characterisations). -/

/-- NAL unit type of a header byte: `none` when the forbidden bit is set
(header parse failure), else the low five bits. -/
def headerType (b : Nat) : Option Nat :=
  if b < 128 then some (b % 32) else none

/-- NAL unit type of a unit's byte sequence (header is the first byte). -/
def nalType (n : List Nat) : Option Nat :=
  match n with
  | [] => none
  | h :: _ => headerType h

/-- Scanner state: splitter fields (`zeros`, `cur`, trace `nals`) plus the
three accumulator fields of `H264InspectionState`. -/
structure H264ScanState where
  zeros : Nat
  cur : Option (List Nat)
  nals : List (List Nat)
  coding_details_from_sps : Option (Except String VideoEncodingDetails)
  idr_frame_found : Bool
  num_frames_detected : Nat
deriving DecidableEq

/-- The fresh state of `H264InspectionState::default()` with an idle splitter. -/
def initState : H264ScanState :=
  ⟨0, none, [], none, false, 0⟩

/-- Handler effect at the first byte of a new NAL
(`H264InspectionState::nal` on a not-yet-complete unit): slices are
counted immediately, an SPS merely keeps buffering, everything else is
ignored. -/
def startEffect (st : H264ScanState) (b : Nat) : H264ScanState :=
  if headerType b = some 5 then
    { st with idr_frame_found := true,
              num_frames_detected := st.num_frames_detected + 1 }
  else if headerType b = some 1 then
    { st with num_frames_detected := st.num_frames_detected + 1 }
  else st

/-- Handler effect when a NAL unit completes: a complete SPS is decoded
and unconditionally replaces the stored result
(`frame_inspection.rs:104`); other types saw their effect at the first
byte already. -/
def completeEffect (st : H264ScanState) (c : List Nat) : H264ScanState :=
  if nalType c = some 7 then
    { st with coding_details_from_sps := some (decodeSpsNal c) }
  else st

/-- One byte of the streaming scan. -/
def scanByte (st : H264ScanState) (b : Nat) : H264ScanState :=
  match st.cur with
  | none =>
    if b = 0 then { st with zeros := st.zeros + 1 }
    else if b = 1 ∧ 2 ≤ st.zeros then { st with zeros := 0, cur := some [] }
    else { st with zeros := 0 }
  | some c =>
    if b = 0 then { st with zeros := st.zeros + 1 }
    else if b = 1 ∧ 2 ≤ st.zeros then
      let st' := completeEffect st c
      { st' with zeros := 0, cur := some [], nals := st.nals ++ [c] }
    else
      let nb := c ++ List.replicate st.zeros 0 ++ [b]
      let st' := if c.isEmpty ∧ st.zeros = 0 then startEffect st b else st
      { st' with zeros := 0, cur := some nb }

/-- Push a window of bytes into the scanner (`AnnexBReader::push`). -/
def scanBytes (st : H264ScanState) (bs : List Nat) : H264ScanState :=
  bs.foldl scanByte st

/-- The feeder loop of `inspect_h264_annexb_sample` (lines 146-153):
consume the buffer in windows of at most `MAX_CHUNK_SIZE = 256` bytes. -/
def feedWindows (st : H264ScanState) (bs : List Nat) : H264ScanState :=
  if bs.isEmpty then st
  else feedWindows (scanBytes st (bs.take 256)) (bs.drop 256)
termination_by bs.length
decreasing_by
  cases bs with
  | nil => simp_all
  | cons a l => simp only [List.length_drop, List.length_cons]; omega

/-- Result assembly of `inspect_h264_annexb_sample` (lines 155-180). -/
def assembleResult (st : H264ScanState) :
    Except VideoChunkInspectionError VideoChunkInspection :=
  match st.coding_details_from_sps with
  | some (.ok d) =>
    .ok ⟨if st.idr_frame_found then .startOfGop d else .notStartOfGop,
         some st.num_frames_detected⟩
  | some (.error e) => .error (.failedToExtractEncodingDetails e)
  | none => .ok ⟨.notStartOfGop, some st.num_frames_detected⟩

/-- `inspect_h264_annexb_sample`. -/
def inspect_h264_annexb_sample (bs : List Nat) :
    Except VideoChunkInspectionError VideoChunkInspection :=
  assembleResult (feedWindows initState bs)

/-- `inspect_video_chunk` (lines 68-80): dispatch by codec. -/
def inspect_video_chunk (bs : List Nat) (codec : VideoCodec) :
    Except VideoChunkInspectionError VideoChunkInspection :=
  match codec with
  | .h264 => inspect_h264_annexb_sample bs
  | .h265 => .error (.unsupportedCodec codec)
  | .av1 => .error (.unsupportedCodec codec)
  | .vp8 => .error (.unsupportedCodec codec)
  | .vp9 => .error (.unsupportedCodec codec)

/-! ## Specification-side characterisations

These definitions state, independently of the scanner's incremental
bookkeeping, which NAL units a chunk contains and what the accumulator of
`H264InspectionState` computes for them. -/

/-- The accumulator fields of `H264InspectionState`. -/
structure AccFields where
  sps : Option (Except String VideoEncodingDetails)
  idr : Bool
  frames : Nat
deriving DecidableEq

/-- The accumulator fields held inside a scanner state. -/
def accOf (st : H264ScanState) : AccFields :=
  ⟨st.coding_details_from_sps, st.idr_frame_found, st.num_frames_detected⟩

/-- The per-NAL-unit transition of `H264InspectionState::nal`, applied to
one discovered unit (bytes, completeness): a complete SPS replaces the
stored decode result, an IDR slice sets the flag and counts, a non-IDR
slice counts, anything else (other types, failed headers) is inert. -/
def hstep (h : AccFields) (e : List Nat × Bool) : AccFields :=
  if nalType e.1 = some 7 then
    if e.2 then { h with sps := some (decodeSpsNal e.1) } else h
  else if nalType e.1 = some 5 then
    { h with idr := true, frames := h.frames + 1 }
  else if nalType e.1 = some 1 then
    { h with frames := h.frames + 1 }
  else h

/-- The NAL units a scanner state has discovered: the completed units in
order, followed by the still-open unit when it has received bytes. -/
def H264ScanState.discovered (st : H264ScanState) : List (List Nat × Bool) :=
  st.nals.map (fun n => (n, true)) ++
    (match st.cur with
     | some c => if c.isEmpty then [] else [(c, false)]
     | none => [])

/-- Folding the per-NAL transition over a list of discovered units,
starting from the default accumulator. -/
def listScan (l : List (List Nat × Bool)) : AccFields :=
  l.foldl hstep ⟨none, false, 0⟩

/-- Number of slice (IDR or non-IDR) NAL units among discovered units. -/
def countSlices : List (List Nat × Bool) → Nat
  | [] => 0
  | e :: t => (if nalType e.1 = some 5 ∨ nalType e.1 = some 1 then 1 else 0)
      + countSlices t

/-- Whether some discovered unit is an IDR slice. -/
def hasIdrNal : List (List Nat × Bool) → Bool
  | [] => false
  | e :: t => (nalType e.1 == some 5) || hasIdrNal t

/-- The decode results of the complete SPS units, in byte order. -/
def spsResults : List (List Nat × Bool) → List (Except String VideoEncodingDetails)
  | [] => []
  | e :: t =>
    if e.2 = true ∧ nalType e.1 = some 7 then decodeSpsNal e.1 :: spsResults t
    else spsResults t

/-- Last element of a list, as an option. -/
def lastOpt {α : Type} : List α → Option α
  | [] => none
  | x :: t =>
    match lastOpt t with
    | some y => some y
    | none => some x

/-- The NAL units discovered in a whole chunk. -/
def discoveredNals (bs : List Nat) : List (List Nat × Bool) :=
  (scanBytes initState bs).discovered

/-- `scFree z bs`: scanning `bs` with `z` pending zero bytes meets no
Annex-B start code. -/
def scFree : Nat → List Nat → Bool
  | _, [] => true
  | z, b :: r =>
    if b = 0 then scFree (z + 1) r
    else if b = 1 ∧ 2 ≤ z then false
    else scFree 0 r

/-- The scanner-accumulator coupling: the accumulator fields equal the
per-NAL fold over the units discovered so far. -/
def goodState (st : H264ScanState) : Prop :=
  accOf st = listScan st.discovered

/-! ## Concrete inputs (the Annex-B samples of the module's test). -/

/-- Scenario A: an SPS (profile `0x64`, level `0x0A`, 64x64, 8-bit,
4:2:0) followed by one IDR slice. -/
def sampleGop : List Nat :=
  [0x00, 0x00, 0x00, 0x01, 0x67, 0x64, 0x00, 0x0A, 0xAC, 0x72, 0x84, 0x44, 0x26, 0x84,
   0x00, 0x00, 0x03, 0x00, 0x04, 0x00, 0x00, 0x03, 0x00, 0xCA, 0x3C, 0x48, 0x96, 0x11,
   0x80,
   0x00, 0x00, 0x00, 0x01, 0x65, 0x88, 0x84, 0x21, 0x43, 0x02, 0x4C, 0x82, 0x54, 0x2B,
   0x8F, 0x2C, 0x8C, 0x54, 0x4A, 0x92, 0x54, 0x2B, 0x8F, 0x2C, 0x8C, 0x54, 0x4A, 0x92]

/-- The same chunk with a mangled SPS body, followed by a valid IDR. -/
def sampleBrokenSps : List Nat :=
  [0x00, 0x00, 0x00, 0x01, 0x67,
   0x00, 0x00, 0x0A, 0xAC, 0x72, 0x84, 0x44, 0x26, 0x84, 0x00, 0x00, 0x03, 0x00, 0x04,
   0x00, 0x00, 0x03, 0x00, 0xCA, 0x3C, 0x48, 0x96, 0x11, 0x80,
   0x00, 0x00, 0x00, 0x01, 0x65,
   0x88, 0x84, 0x21, 0x43, 0x02, 0x4C, 0x82, 0x54, 0x2B, 0x8F, 0x2C, 0x8C, 0x54, 0x4A,
   0x92, 0x54, 0x2B, 0x8F, 0x2C, 0x8C, 0x54, 0x4A, 0x92]

/-- A single SPS with no following start code: the unit never completes. -/
def sampleLoneSps : List Nat :=
  [0x00, 0x00, 0x00, 0x01, 0x67, 0x64, 0x00, 0x0A, 0xAC, 0x72, 0x84, 0x44, 0x26, 0x84,
   0x00, 0x00, 0x03, 0x00, 0x04, 0x00, 0x00, 0x03, 0x00, 0xCA, 0x3C, 0x48, 0x96, 0x11,
   0x80]

/-! ## Basic lemmas about the scan -/

theorem scanBytes_nil (st : H264ScanState) : scanBytes st [] = st := rfl

theorem scanBytes_cons (st : H264ScanState) (b : Nat) (bs : List Nat) :
    scanBytes st (b :: bs) = scanBytes (scanByte st b) bs := rfl

theorem scanBytes_append (st : H264ScanState) (a b : List Nat) :
    scanBytes st (a ++ b) = scanBytes (scanBytes st a) b := by
  simp [scanBytes, List.foldl_append]

theorem feedWindows_eq_scanBytes_aux :
    ∀ (n : Nat) (bs : List Nat) (st : H264ScanState), bs.length ≤ n →
      feedWindows st bs = scanBytes st bs := by
  intro n
  induction n with
  | zero =>
    intro bs st h
    have hb : bs = [] := List.eq_nil_of_length_eq_zero (Nat.le_zero.mp h)
    subst hb
    rw [feedWindows]
    simp [scanBytes]
  | succ n ih =>
    intro bs st h
    rw [feedWindows]
    by_cases hb : bs.isEmpty
    · have : bs = [] := by simpa [List.isEmpty_iff] using hb
      subst this
      simp [scanBytes]
    · simp only [hb, if_false]
      have hlen : (bs.drop 256).length ≤ n := by
        have hpos : 0 < bs.length := by
          cases bs with
          | nil => simp at hb
          | cons x l => simp
        simp only [List.length_drop]
        omega
      rw [ih (bs.drop 256) _ hlen, ← scanBytes_append, List.take_append_drop]
      simp

theorem feedWindows_eq_scanBytes (st : H264ScanState) (bs : List Nat) :
    feedWindows st bs = scanBytes st bs :=
  feedWindows_eq_scanBytes_aux bs.length bs st le_rfl

/-! ## Characterising the per-NAL fold -/

theorem hstep_frames (h : AccFields) (e : List Nat × Bool) :
    (hstep h e).frames =
      h.frames + (if nalType e.1 = some 5 ∨ nalType e.1 = some 1 then 1 else 0) := by
  unfold hstep
  split_ifs with h7 he h5 h1 <;> simp_all

theorem hstep_idr (h : AccFields) (e : List Nat × Bool) :
    (hstep h e).idr = (h.idr || (nalType e.1 == some 5)) := by
  unfold hstep
  split_ifs with h7 he h5 h1 <;> simp_all

theorem hstep_sps (h : AccFields) (e : List Nat × Bool) :
    (hstep h e).sps =
      if e.2 = true ∧ nalType e.1 = some 7 then some (decodeSpsNal e.1) else h.sps := by
  unfold hstep
  split_ifs with h7 he h5 h1 <;> simp_all

theorem foldl_hstep_frames (l : List (List Nat × Bool)) :
    ∀ h : AccFields, (l.foldl hstep h).frames = h.frames + countSlices l := by
  induction l with
  | nil => intro h; simp [countSlices]
  | cons e t ih =>
    intro h
    simp only [List.foldl_cons, ih, hstep_frames, countSlices]
    omega

theorem foldl_hstep_idr (l : List (List Nat × Bool)) :
    ∀ h : AccFields, (l.foldl hstep h).idr = (h.idr || hasIdrNal l) := by
  induction l with
  | nil => intro h; simp [hasIdrNal]
  | cons e t ih =>
    intro h
    simp only [List.foldl_cons, ih, hstep_idr, hasIdrNal, Bool.or_assoc]

theorem foldl_hstep_sps (l : List (List Nat × Bool)) :
    ∀ h : AccFields, (l.foldl hstep h).sps =
      (match lastOpt (spsResults l) with
       | some r => some r
       | none => h.sps) := by
  induction l with
  | nil => intro h; simp [spsResults, lastOpt]
  | cons e t ih =>
    intro h
    simp only [List.foldl_cons, ih]
    by_cases h7 : e.2 = true ∧ nalType e.1 = some 7
    · simp only [spsResults, if_pos h7, lastOpt, hstep_sps, h7]
      cases lastOpt (spsResults t) <;> simp
    · simp only [spsResults, if_neg h7, hstep_sps, h7, if_false]

theorem listScan_frames (l : List (List Nat × Bool)) :
    (listScan l).frames = countSlices l := by
  simpa [listScan] using foldl_hstep_frames l ⟨none, false, 0⟩

theorem listScan_idr (l : List (List Nat × Bool)) :
    (listScan l).idr = hasIdrNal l := by
  simpa [listScan] using foldl_hstep_idr l ⟨none, false, 0⟩

theorem listScan_sps (l : List (List Nat × Bool)) :
    (listScan l).sps = lastOpt (spsResults l) := by
  have := foldl_hstep_sps l ⟨none, false, 0⟩
  simp only [listScan, this]
  cases lastOpt (spsResults l) <;> simp

theorem nalType_cons_append (a : Nat) (t l : List Nat) :
    nalType ((a :: t) ++ l) = headerType a := rfl

theorem nalType_replicate_zero (z : Nat) (b : Nat) (hz : 0 < z) :
    nalType (List.replicate z 0 ++ [b]) = some 0 := by
  cases z with
  | zero => omega
  | succ n => simp [List.replicate_succ, nalType, headerType]

theorem listScan_concat (l : List (List Nat × Bool)) (x : List Nat × Bool) :
    listScan (l ++ [x]) = hstep (listScan l) x := by
  simp [listScan, List.foldl_append]

theorem hstep_false_congr (h : AccFields) (x y : List Nat)
    (hxy : nalType x = nalType y) : hstep h (x, false) = hstep h (y, false) := by
  unfold hstep
  simp only [hxy]
  simp

theorem hstep_complete_eq (h : AccFields) (c : List Nat)
    (h7 : nalType c ≠ some 7) : hstep h (c, true) = hstep h (c, false) := by
  unfold hstep
  simp [h7]

theorem hstep_incomplete_sps (h : AccFields) (c : List Nat)
    (h7 : nalType c = some 7) : hstep h (c, false) = h := by
  unfold hstep
  simp [h7]

theorem scanByte_good (st : H264ScanState) (b : Nat) (hg : goodState st) :
    goodState (scanByte st b) := by
  obtain ⟨z, cur, nals, sps, idr, fr⟩ := st
  cases cur with
  | none =>
    simp only [goodState, accOf, H264ScanState.discovered, scanByte] at hg ⊢
    split_ifs <;> simpa using hg
  | some c =>
    simp only [goodState, accOf, H264ScanState.discovered, scanByte] at hg ⊢
    split_ifs with hb0 hsc hse
    · -- a zero byte is held back; nothing else changes
      simpa using hg
    · -- a start code: the current unit completes
      cases c with
      | nil =>
        simp only [List.isEmpty_nil, if_pos] at hg
        simp only [List.append_nil] at hg
        simp only [List.map_append, List.map_cons, List.map_nil,
          List.isEmpty_nil, if_pos, List.append_nil, List.append_assoc,
          List.nil_append]
        rw [listScan_concat]
        have h1 : hstep (listScan (nals.map fun n => (n, true))) ([], true)
            = listScan (nals.map fun n => (n, true)) := by
          unfold hstep
          simp [nalType]
        rw [h1]
        simpa [completeEffect, nalType] using hg
      | cons a t =>
        simp only [List.isEmpty_cons, Bool.false_eq_true, if_false] at hg
        rw [listScan_concat] at hg
        simp only [List.map_append, List.map_cons, List.map_nil,
          List.isEmpty_nil, if_pos, List.append_nil, List.append_assoc,
          List.nil_append]
        rw [listScan_concat]
        by_cases h7 : nalType (a :: t) = some 7
        · rw [hstep_incomplete_sps _ _ h7] at hg
          simp only [completeEffect, if_pos h7]
          unfold hstep
          simp only [h7, if_pos, if_true]
          simp only [← hg]
        · simp only [completeEffect, if_neg h7]
          rw [hstep_complete_eq _ _ h7]
          simpa using hg
    · -- first content byte of a fresh unit
      obtain ⟨hce, hz0⟩ := hse
      have hc : c = [] := by simpa [List.isEmpty_iff] using hce
      subst hc
      subst hz0
      simp only [List.isEmpty_nil, if_pos, List.append_nil] at hg
      simp only [List.replicate_zero, List.nil_append, List.isEmpty_cons,
        Bool.false_eq_true, if_false]
      have hs : (listScan (nals.map fun n => (n, true))).sps = sps := by
        rw [← hg]
      have hi : (listScan (nals.map fun n => (n, true))).idr = idr := by
        rw [← hg]
      have hf : (listScan (nals.map fun n => (n, true))).frames = fr := by
        rw [← hg]
      rw [listScan_concat]
      unfold startEffect hstep
      simp only [nalType]
      split_ifs with p1 p2 p3 p4 p5 <;> simp_all
    · -- bytes join the already open unit (or pending zeros precede it)
      cases c with
      | nil =>
        simp only [List.isEmpty_nil, if_pos, List.append_nil] at hg
        have hz : ¬ z = 0 := by
          intro h
          exact hse ⟨by simp, h⟩
        simp only [List.isEmpty_nil, true_and, if_neg hz, List.nil_append]
        have hne : (List.replicate z 0 ++ [b]).isEmpty = false := by
          cases z with
          | zero => omega
          | succ n => simp [List.replicate_succ]
        simp only [hne, Bool.false_eq_true, if_false]
        rw [listScan_concat]
        have h0 : hstep (listScan (nals.map fun n => (n, true)))
            (List.replicate z 0 ++ [b], false)
            = listScan (nals.map fun n => (n, true)) := by
          unfold hstep
          simp [nalType_replicate_zero z b (Nat.pos_of_ne_zero hz)]
        rw [h0]
        exact hg
      | cons a t =>
        simp only [List.isEmpty_cons, Bool.false_eq_true, if_false,
          false_and] at hg
        rw [listScan_concat] at hg
        have hne : ((a :: t) ++ List.replicate z 0 ++ [b]).isEmpty = false := by
          simp
        simp only [List.isEmpty_cons, Bool.false_eq_true, false_and, if_false,
          List.cons_append, hne]
        rw [listScan_concat]
        rw [hstep_false_congr _ (a :: (t ++ List.replicate z 0 ++ [b]))
          (a :: t) rfl]
        simpa using hg

theorem scanBytes_good (bs : List Nat) :
    ∀ st : H264ScanState, goodState st → goodState (scanBytes st bs) := by
  induction bs with
  | nil => intro st h; exact h
  | cons b r ih =>
    intro st h
    rw [scanBytes_cons]
    exact ih _ (scanByte_good st b h)

theorem initState_good : goodState initState := rfl

theorem run_good (bs : List Nat) : goodState (scanBytes initState bs) :=
  scanBytes_good bs initState initState_good

theorem scan_sps_eq (bs : List Nat) :
    (scanBytes initState bs).coding_details_from_sps
      = lastOpt (spsResults (discoveredNals bs)) := by
  have h := run_good bs
  have := congrArg AccFields.sps h
  simpa [accOf, discoveredNals, listScan_sps] using this

theorem scan_idr_eq (bs : List Nat) :
    (scanBytes initState bs).idr_frame_found = hasIdrNal (discoveredNals bs) := by
  have h := run_good bs
  have := congrArg AccFields.idr h
  simpa [accOf, discoveredNals, listScan_idr] using this

theorem scan_frames_eq (bs : List Nat) :
    (scanBytes initState bs).num_frames_detected
      = countSlices (discoveredNals bs) := by
  have h := run_good bs
  have := congrArg AccFields.frames h
  simpa [accOf, discoveredNals, listScan_frames] using this

/-! ## List-level membership facts -/

theorem lastOpt_mem {α : Type} (l : List α) (x : α) (h : lastOpt l = some x) :
    x ∈ l := by
  induction l with
  | nil => simp [lastOpt] at h
  | cons a t ih =>
    unfold lastOpt at h
    cases ht : lastOpt t with
    | some y =>
      rw [ht] at h
      cases h
      exact List.mem_cons_of_mem _ (ih ht)
    | none =>
      rw [ht] at h
      cases h
      exact List.mem_cons_self _ _

theorem lastOpt_eq_none_iff {α : Type} (l : List α) :
    lastOpt l = none ↔ l = [] := by
  cases l with
  | nil => simp [lastOpt]
  | cons a t =>
    simp only [lastOpt]
    cases lastOpt t <;> simp

theorem mem_spsResults_iff (l : List (List Nat × Bool))
    (x : Except String VideoEncodingDetails) :
    x ∈ spsResults l ↔
      ∃ p ∈ l, p.2 = true ∧ nalType p.1 = some 7 ∧ decodeSpsNal p.1 = x := by
  induction l with
  | nil => simp [spsResults]
  | cons e t ih =>
    by_cases h7 : e.2 = true ∧ nalType e.1 = some 7
    · simp only [spsResults, if_pos h7, List.mem_cons, ih]
      constructor
      · rintro (rfl | ⟨p, hp, hflag, htype, hdec⟩)
        · exact ⟨e, Or.inl rfl, h7.1, h7.2, rfl⟩
        · exact ⟨p, Or.inr hp, hflag, htype, hdec⟩
      · rintro ⟨p, rfl | hp', hflag, htype, hdec⟩
        · exact Or.inl hdec.symm
        · exact Or.inr ⟨p, hp', hflag, htype, hdec⟩
    · simp only [spsResults, if_neg h7, ih, List.mem_cons]
      constructor
      · rintro ⟨p, hp, hflag, htype, hdec⟩
        exact ⟨p, Or.inr hp, hflag, htype, hdec⟩
      · rintro ⟨p, rfl | hp', hflag, htype, hdec⟩
        · exact absurd ⟨hflag, htype⟩ h7
        · exact ⟨p, hp', hflag, htype, hdec⟩

theorem hasIdrNal_iff (l : List (List Nat × Bool)) :
    hasIdrNal l = true ↔ ∃ p ∈ l, nalType p.1 = some 5 := by
  induction l with
  | nil => simp [hasIdrNal]
  | cons e t ih =>
    simp only [hasIdrNal, Bool.or_eq_true, beq_iff_eq, ih, List.mem_cons]
    constructor
    · rintro (h5 | ⟨p, hp, h5⟩)
      · exact ⟨e, Or.inl rfl, h5⟩
      · exact ⟨p, Or.inr hp, h5⟩
    · rintro ⟨p, rfl | hp', h5⟩
      · exact Or.inl h5
      · exact Or.inr ⟨p, hp', h5⟩

/-! ## Monotonicity of the frame counter -/

theorem scanByte_frames_mono (st : H264ScanState) (b : Nat) :
    st.num_frames_detected ≤ (scanByte st b).num_frames_detected := by
  obtain ⟨z, cur, nals, sps, idr, fr⟩ := st
  cases cur with
  | none =>
    simp only [scanByte]
    split_ifs <;> simp
  | some c =>
    simp only [scanByte]
    split_ifs with hb0 hsc hse
    · simp
    · unfold completeEffect
      split_ifs <;> simp
    · unfold startEffect
      split_ifs <;> simp
    · simp

theorem scanBytes_frames_mono (bs : List Nat) :
    ∀ st : H264ScanState,
      st.num_frames_detected ≤ (scanBytes st bs).num_frames_detected := by
  induction bs with
  | nil => intro st; exact le_rfl
  | cons b r ih =>
    intro st
    rw [scanBytes_cons]
    exact le_trans (scanByte_frames_mono st b) (ih (scanByte st b))

theorem inspect_eq_assemble (bs : List Nat) :
    inspect_h264_annexb_sample bs = assembleResult (scanBytes initState bs) := by
  unfold inspect_h264_annexb_sample
  rw [feedWindows_eq_scanBytes]

theorem scFree_scan (bs : List Nat) :
    ∀ (z : Nat) (nals : List (List Nat))
      (sps : Option (Except String VideoEncodingDetails)) (idr : Bool) (fr : Nat),
      scFree z bs = true →
      ∃ z', scanBytes ⟨z, none, nals, sps, idr, fr⟩ bs
        = ⟨z', none, nals, sps, idr, fr⟩ := by
  induction bs with
  | nil => intro z nals sps idr fr _; exact ⟨z, rfl⟩
  | cons b r ih =>
    intro z nals sps idr fr hf
    rw [scanBytes_cons]
    unfold scFree at hf
    by_cases hb0 : b = 0
    · subst hb0
      simp only [if_pos rfl] at hf
      simp only [scanByte, if_pos rfl]
      exact ih (z + 1) nals sps idr fr hf
    · by_cases hsc : b = 1 ∧ 2 ≤ z
      · rw [if_neg hb0, if_pos hsc] at hf
        exact absurd hf (by simp)
      · rw [if_neg hb0, if_neg hsc] at hf
        simp only [scanByte, if_neg hb0, if_neg hsc]
        exact ih 0 nals sps idr fr hf

/-! ## The claims -/

/-- C2: whenever the last (in byte order) complete SPS of a chunk fails to
decode, inspection returns `FailedToExtractEncodingDetails` carrying the
decode-failure message, regardless of any IDR in the chunk; the failure is
never downgraded to `NotStartOfGop`. -/
theorem c2_failing_last_sps_is_hard_error (bs : List Nat) (m : String)
    (h : lastOpt (spsResults (discoveredNals bs)) = some (.error m)) :
    inspect_h264_annexb_sample bs
      = .error (.failedToExtractEncodingDetails m) := by
  rw [inspect_eq_assemble]
  unfold assembleResult
  rw [scan_sps_eq bs, h]

theorem c2_failing_last_sps_is_hard_error_witness :
    lastOpt (spsResults (discoveredNals sampleBrokenSps))
        = some (.error "Failed reading SPS: RbspReaderError(RemainingData)") ∧
      inspect_h264_annexb_sample sampleBrokenSps
        = .error (.failedToExtractEncodingDetails
            "Failed reading SPS: RbspReaderError(RemainingData)") :=
  ⟨by decide, c2_failing_last_sps_is_hard_error sampleBrokenSps _ (by decide)⟩

/-- C4: for every input and every codec other than H.264, inspection
returns `UnsupportedCodec codec` (in particular it never reports
`NotStartOfGop` for such codecs). -/
theorem c4_unsupported_codec (bs : List Nat) (codec : VideoCodec)
    (h : codec ≠ .h264) :
    inspect_video_chunk bs codec = .error (.unsupportedCodec codec) := by
  cases codec with
  | h264 => exact absurd rfl h
  | h265 => rfl
  | av1 => rfl
  | vp8 => rfl
  | vp9 => rfl

theorem c4_unsupported_codec_witness :
    (VideoCodec.h265 ≠ VideoCodec.h264) ∧
      inspect_video_chunk [0, 1, 2] .h265
        = .error (.unsupportedCodec .h265) :=
  ⟨by decide, c4_unsupported_codec [0, 1, 2] .h265 (by decide)⟩

/-- C5: feeding the whole buffer into the streaming splitter in one window
and feeding it in the 256-byte windows of the source's feeder loop produce
the same final accumulator state, and hence the inspection result is the
assembly of the single-window scan. -/
theorem c5_window_feeding_equivalence (st : H264ScanState) (bs : List Nat) :
    feedWindows st bs = scanBytes st bs ∧
      inspect_h264_annexb_sample bs = assembleResult (scanBytes initState bs) :=
  ⟨feedWindows_eq_scanBytes st bs, inspect_eq_assemble bs⟩

/-- C6: the stored SPS result after a scan is exactly the decode of the
last complete SPS unit in byte order (each decode unconditionally replaced
the previous one), and the final inspection result is assembled from it. -/
theorem c6_last_sps_wins (bs : List Nat) :
    (feedWindows initState bs).coding_details_from_sps
        = lastOpt (spsResults (discoveredNals bs)) ∧
      inspect_h264_annexb_sample bs
        = assembleResult (feedWindows initState bs) := by
  constructor
  · rw [feedWindows_eq_scanBytes]
    exact scan_sps_eq bs
  · rfl

/-- C8: on the concrete scenario-A chunk (SPS with profile `0x64`, level
`0x0A`, 64x64, 8-bit, 4:2:0, followed by one IDR slice) inspection returns
`StartOfGop` with codec string `"avc1.64000A"`, coded dimensions 64x64,
bit depth 8, 4:2:0 chroma subsampling, and one detected frame. -/
theorem c8_concrete_scenario_a :
    inspect_video_chunk sampleGop .h264 =
      .ok ⟨.startOfGop ⟨"avc1.64000A", (64, 64), some 8, some .yuv420, none⟩,
           some 1⟩ := by
  show inspect_h264_annexb_sample sampleGop = _
  rw [inspect_eq_assemble]
  decide

/-- C1: when inspection succeeds, the verdict is `StartOfGop` exactly when
the chunk contains a complete, successfully decodable SPS and at least one
IDR slice — irrespective of their byte order; SPS-only or IDR-only chunks
give `NotStartOfGop`. -/
theorem c1_start_of_gop_iff (bs : List Nat) (r : VideoChunkInspection)
    (h : inspect_h264_annexb_sample bs = .ok r) :
    (∃ d, r.gop_detection = .startOfGop d) ↔
      ((∃ p ∈ discoveredNals bs, p.2 = true ∧ nalType p.1 = some 7 ∧
          ∃ d, decodeSpsNal p.1 = .ok d) ∧
        ∃ p ∈ discoveredNals bs, nalType p.1 = some 5) := by
  rw [inspect_eq_assemble] at h
  unfold assembleResult at h
  have hsps := scan_sps_eq bs
  have hidr := scan_idr_eq bs
  cases hspseq : (scanBytes initState bs).coding_details_from_sps with
  | none =>
    rw [hspseq] at h
    cases h
    rw [hspseq] at hsps
    constructor
    · rintro ⟨d, hd⟩
      simp at hd
    · rintro ⟨⟨p, hp, hflag, h7, d, hdec⟩, -⟩
      have hmem : (Except.ok d : Except String VideoEncodingDetails)
          ∈ spsResults (discoveredNals bs) :=
        (mem_spsResults_iff _ _).mpr ⟨p, hp, hflag, h7, hdec⟩
      have hempty : spsResults (discoveredNals bs) = [] :=
        (lastOpt_eq_none_iff _).mp hsps.symm
      rw [hempty] at hmem
      simp at hmem
  | some res =>
    cases res with
    | error e =>
      rw [hspseq] at h
      cases h
    | ok d =>
      rw [hspseq] at h
      rw [hspseq] at hsps
      cases hidrb : (scanBytes initState bs).idr_frame_found with
      | true =>
        rw [hidrb] at h
        cases h
        rw [hidrb] at hidr
        constructor
        · intro _
          refine ⟨?_, ?_⟩
          · have hmem : (Except.ok d : Except String VideoEncodingDetails)
                ∈ spsResults (discoveredNals bs) :=
              lastOpt_mem _ _ hsps.symm
            obtain ⟨p, hp, hflag, h7, hdec⟩ := (mem_spsResults_iff _ _).mp hmem
            exact ⟨p, hp, hflag, h7, d, hdec⟩
          · exact (hasIdrNal_iff _).mp hidr.symm
        · intro _
          exact ⟨d, rfl⟩
      | false =>
        rw [hidrb] at h
        cases h
        rw [hidrb] at hidr
        constructor
        · rintro ⟨d', hd'⟩
          simp at hd'
        · rintro ⟨-, p, hp, h5⟩
          have : hasIdrNal (discoveredNals bs) = true :=
            (hasIdrNal_iff _).mpr ⟨p, hp, h5⟩
          rw [← hidr] at this
          cases this

theorem c1_start_of_gop_iff_witness :
    inspect_h264_annexb_sample sampleGop
        = .ok ⟨.startOfGop
            ⟨"avc1.64000A", (64, 64), some 8, some .yuv420, none⟩, some 1⟩ ∧
      ((∃ d, (GopStartDetection.startOfGop
          ⟨"avc1.64000A", (64, 64), some 8, some .yuv420, none⟩)
            = .startOfGop d) ↔
        ((∃ p ∈ discoveredNals sampleGop, p.2 = true ∧ nalType p.1 = some 7 ∧
            ∃ d, decodeSpsNal p.1 = .ok d) ∧
          ∃ p ∈ discoveredNals sampleGop, nalType p.1 = some 5)) := by
  have hins : inspect_h264_annexb_sample sampleGop
      = .ok ⟨.startOfGop
          ⟨"avc1.64000A", (64, 64), some 8, some .yuv420, none⟩, some 1⟩ := by
    rw [inspect_eq_assemble]
    decide
  exact ⟨hins, c1_start_of_gop_iff sampleGop _ hins⟩

/-- C3: when inspection succeeds, `num_frames_detected` is `some k` with
`k` the number of IDR and non-IDR slice NAL units discovered in the chunk
(possibly zero), and that count never decreases when further bytes — in
particular further slice NAL units — are appended to the input. -/
theorem c3_frame_count (bs ext : List Nat) (r : VideoChunkInspection)
    (h : inspect_h264_annexb_sample bs = .ok r) :
    r.num_frames_detected = some (countSlices (discoveredNals bs)) ∧
      countSlices (discoveredNals bs)
        ≤ countSlices (discoveredNals (bs ++ ext)) := by
  constructor
  · rw [inspect_eq_assemble] at h
    unfold assembleResult at h
    rw [← scan_frames_eq bs]
    cases hspseq : (scanBytes initState bs).coding_details_from_sps with
    | none =>
      rw [hspseq] at h
      cases h
      rfl
    | some res =>
      cases res with
      | error e =>
        rw [hspseq] at h
        cases h
      | ok d =>
        rw [hspseq] at h
        cases h
        rfl
  · rw [← scan_frames_eq bs, ← scan_frames_eq (bs ++ ext), scanBytes_append]
    exact scanBytes_frames_mono ext (scanBytes initState bs)

theorem c3_frame_count_witness :
    inspect_h264_annexb_sample sampleGop
        = .ok ⟨.startOfGop
            ⟨"avc1.64000A", (64, 64), some 8, some .yuv420, none⟩, some 1⟩ ∧
      (some 1 : Option Nat) = some (countSlices (discoveredNals sampleGop)) ∧
      countSlices (discoveredNals sampleGop)
        ≤ countSlices (discoveredNals (sampleGop ++ sampleGop)) := by
  have hins : inspect_h264_annexb_sample sampleGop
      = .ok ⟨.startOfGop
          ⟨"avc1.64000A", (64, 64), some 8, some .yuv420, none⟩, some 1⟩ := by
    rw [inspect_eq_assemble]
    decide
  exact ⟨hins, c3_frame_count sampleGop sampleGop _ hins⟩

/-- C7: a NAL unit whose header fails to parse, or whose type is neither
SPS nor IDR nor non-IDR slice, leaves the accumulator unchanged and raises
no error; and no inspection ever returns `NalHeaderError`. -/
theorem c7_irrelevant_nal_ignored (h : AccFields) (p : List Nat × Bool)
    (hcond : nalType p.1 ≠ some 7 ∧ nalType p.1 ≠ some 5 ∧
      nalType p.1 ≠ some 1) :
    hstep h p = h ∧
      ∀ (bs : List Nat) (codec : VideoCodec),
        inspect_video_chunk bs codec ≠ .error .nalHeaderError := by
  constructor
  · unfold hstep
    rw [if_neg hcond.1, if_neg hcond.2.1, if_neg hcond.2.2]
  · intro bs codec
    cases codec with
    | h264 =>
      show inspect_h264_annexb_sample bs ≠ _
      rw [inspect_eq_assemble]
      unfold assembleResult
      cases hs : (scanBytes initState bs).coding_details_from_sps with
      | none => simp
      | some res =>
        cases res with
        | ok d => simp
        | error e => simp
    | h265 => simp [inspect_video_chunk]
    | av1 => simp [inspect_video_chunk]
    | vp8 => simp [inspect_video_chunk]
    | vp9 => simp [inspect_video_chunk]

theorem c7_irrelevant_nal_ignored_witness :
    ((nalType [6] ≠ some 7 ∧ nalType [6] ≠ some 5 ∧ nalType [6] ≠ some 1) ∧
        hstep ⟨none, false, 0⟩ ([6], true) = ⟨none, false, 0⟩) ∧
      inspect_video_chunk [0, 0, 1, 0x80, 0x42] .h264
        ≠ .error .nalHeaderError := by
  have hcond : nalType [6] ≠ some 7 ∧ nalType [6] ≠ some 5 ∧
      nalType [6] ≠ some 1 := by decide
  have hmain := c7_irrelevant_nal_ignored ⟨none, false, 0⟩ ([6], true) hcond
  exact ⟨⟨hcond, hmain.1⟩, hmain.2 [0, 0, 1, 0x80, 0x42] .h264⟩

/-- C9: inspection is a total function; its only error outcomes over all
inputs and codecs are `UnsupportedCodec` and
`FailedToExtractEncodingDetails`, and a byte sequence without any
recognisable Annex-B start code yields `NotStartOfGop` with a zero frame
count. -/
theorem c9_totality_error_taxonomy (bs : List Nat) (codec : VideoCodec)
    (e : VideoChunkInspectionError) :
    (inspect_video_chunk bs codec = .error e →
        ((∃ c, e = .unsupportedCodec c) ∨
          ∃ m, e = .failedToExtractEncodingDetails m)) ∧
      (scFree 0 bs = true →
        inspect_h264_annexb_sample bs = .ok ⟨.notStartOfGop, some 0⟩) := by
  constructor
  · intro h
    cases codec with
    | h264 =>
      replace h : inspect_h264_annexb_sample bs = .error e := h
      rw [inspect_eq_assemble] at h
      unfold assembleResult at h
      cases hs : (scanBytes initState bs).coding_details_from_sps with
      | none =>
        rw [hs] at h
        cases h
      | some res =>
        cases res with
        | ok d =>
          rw [hs] at h
          cases hidrb : (scanBytes initState bs).idr_frame_found with
          | true => rw [hidrb] at h; cases h
          | false => rw [hidrb] at h; cases h
        | error m =>
          rw [hs] at h
          cases h
          exact Or.inr ⟨m, rfl⟩
    | h265 => cases h; exact Or.inl ⟨_, rfl⟩
    | av1 => cases h; exact Or.inl ⟨_, rfl⟩
    | vp8 => cases h; exact Or.inl ⟨_, rfl⟩
    | vp9 => cases h; exact Or.inl ⟨_, rfl⟩
  · intro hf
    obtain ⟨z', hz'⟩ := scFree_scan bs 0 [] none false 0 hf
    rw [inspect_eq_assemble]
    show assembleResult (scanBytes ⟨0, none, [], none, false, 0⟩ bs) = _
    rw [hz']
    rfl

theorem c9_totality_error_taxonomy_witness :
    ((∃ c, (VideoChunkInspectionError.unsupportedCodec .vp9)
          = .unsupportedCodec c) ∨
        ∃ m, (VideoChunkInspectionError.unsupportedCodec .vp9)
          = .failedToExtractEncodingDetails m) ∧
      inspect_h264_annexb_sample [2, 3, 4] = .ok ⟨.notStartOfGop, some 0⟩ :=
  ⟨(c9_totality_error_taxonomy [2, 3, 4] .vp9 (.unsupportedCodec .vp9)).1
      (by decide),
    (c9_totality_error_taxonomy [2, 3, 4] .vp9 (.unsupportedCodec .vp9)).2
      (by decide)⟩

/-- C10: when the input ends inside an SPS NAL unit that is never
completed (and no earlier complete SPS exists), the partial SPS is never
decoded: the stored SPS result stays unset and inspection returns `Ok`
with `NotStartOfGop` — not an SPS decode error. -/
theorem c10_truncated_sps_not_decoded (bs : List Nat) (c : List Nat)
    (h1 : (feedWindows initState bs).cur = some c ∧ nalType c = some 7)
    (h2 : ∀ n ∈ (feedWindows initState bs).nals, nalType n ≠ some 7) :
    (feedWindows initState bs).coding_details_from_sps = none ∧
      inspect_h264_annexb_sample bs
        = .ok ⟨.notStartOfGop, some (countSlices (discoveredNals bs))⟩ := by
  rw [feedWindows_eq_scanBytes] at h1 h2 ⊢
  have hempty : spsResults (discoveredNals bs) = [] := by
    by_contra hne
    obtain ⟨x, hx⟩ := List.exists_mem_of_ne_nil _ hne
    obtain ⟨p, hp, hflag, h7, -⟩ := (mem_spsResults_iff _ _).mp hx
    unfold discoveredNals H264ScanState.discovered at hp
    rcases List.mem_append.mp hp with hp1 | hp2
    · obtain ⟨n, hn, rfl⟩ := List.mem_map.mp hp1
      exact h2 n hn h7
    · rw [h1.1] at hp2
      by_cases hce : c.isEmpty = true
      · simp [hce] at hp2
      · simp [hce] at hp2
        simp [hp2] at hflag
  have hnone : (scanBytes initState bs).coding_details_from_sps = none := by
    rw [scan_sps_eq bs, hempty]
    rfl
  refine ⟨hnone, ?_⟩
  rw [inspect_eq_assemble]
  unfold assembleResult
  rw [hnone, scan_frames_eq bs]

theorem c10_truncated_sps_not_decoded_witness :
    ((feedWindows initState sampleLoneSps).cur
          = some [0x67, 0x64, 0x00, 0x0A, 0xAC, 0x72, 0x84, 0x44, 0x26, 0x84,
                  0x00, 0x00, 0x03, 0x00, 0x04, 0x00, 0x00, 0x03, 0x00, 0xCA,
                  0x3C, 0x48, 0x96, 0x11, 0x80] ∧
        nalType [0x67, 0x64, 0x00, 0x0A, 0xAC, 0x72, 0x84, 0x44, 0x26, 0x84,
                 0x00, 0x00, 0x03, 0x00, 0x04, 0x00, 0x00, 0x03, 0x00, 0xCA,
                 0x3C, 0x48, 0x96, 0x11, 0x80] = some 7) ∧
      (feedWindows initState sampleLoneSps).coding_details_from_sps = none ∧
      inspect_h264_annexb_sample sampleLoneSps
        = .ok ⟨.notStartOfGop, some (countSlices (discoveredNals sampleLoneSps))⟩ := by
  have h1 : (feedWindows initState sampleLoneSps).cur
      = some [0x67, 0x64, 0x00, 0x0A, 0xAC, 0x72, 0x84, 0x44, 0x26, 0x84,
              0x00, 0x00, 0x03, 0x00, 0x04, 0x00, 0x00, 0x03, 0x00, 0xCA,
              0x3C, 0x48, 0x96, 0x11, 0x80] ∧
      nalType [0x67, 0x64, 0x00, 0x0A, 0xAC, 0x72, 0x84, 0x44, 0x26, 0x84,
               0x00, 0x00, 0x03, 0x00, 0x04, 0x00, 0x00, 0x03, 0x00, 0xCA,
               0x3C, 0x48, 0x96, 0x11, 0x80] = some 7 := by
    constructor
    · rw [feedWindows_eq_scanBytes]
      decide
    · decide
  have h2 : ∀ n ∈ (feedWindows initState sampleLoneSps).nals,
      nalType n ≠ some 7 := by
    rw [feedWindows_eq_scanBytes]
    intro n hn
    have : (scanBytes initState sampleLoneSps).nals = [] := by decide
    rw [this] at hn
    cases hn
  exact ⟨h1, c10_truncated_sps_not_decoded sampleLoneSps _ h1 h2⟩
